import Mathlib

/-!
Verification development for the RedAmon agent orchestrator
(`src/agentic/`): a shallow embedding in Lean 4 of the data model
(`state.py`), the phase allow-list configuration (`params.py`), the
LangGraph nodes and routing functions of `orchestrator.py`, and the
phase-transition message template of `prompts.py`.

Conventions of the embedding:
* Python `dict` state updates returned by a node are modelled either as a
  function `AgentState → AgentState` applying the merged update, or — for
  the think node, where it matters which keys the update contains — as an
  explicit update record with `Option` fields (`none` = key absent).
* Python truthiness of an `Optional[str]` (`None` and `""` are falsy) is
  modelled by `truthyOptStr`; `x or y` on such values by `pyOrStr`.
* Python `list(set(xs))` is modelled by `List.dedup` (same elements, one
  occurrence each; Python's set order is unspecified, so properties are
  stated up to set equality of lists).
* Timestamp and uuid fields (`step_id`, `created_at`, `entered_at`, ...)
  are nondeterministic IO and are read by no claim; they are omitted.
  `phase_history` therefore holds the `phase` component of each
  `PhaseHistoryEntry`.
-/

namespace RedAmon

/-- Python truthiness of an `Optional[str]`: `None` and `""` are falsy. -/
def truthyOptStr : Option String → Bool
  | none => false
  | some s => s ≠ ""

/-- Python `new or old` on `Optional[str]` values. -/
def pyOrStr (new old : Option String) : Option String :=
  match new with
  | none => old
  | some v => if v = "" then old else some v

/-- A conversation message; `langchain` `HumanMessage` / `AIMessage`. -/
inductive Msg where
  | human (content : String)
  | ai (content : String)
deriving DecidableEq, Repr

def Msg.isHuman : Msg → Bool
  | .human _ => true
  | .ai _ => false

def Msg.content : Msg → String
  | .human c => c
  | .ai c => c

/-- A credential entry: a Python `dict` of string keys/values, compared by
value equality (`c not in self.credentials` uses `==`). -/
abbrev Cred := List (String × String)

/-- `state.py` `TargetInfo`: accumulated intelligence about the target. -/
structure TargetInfo where
  primary_target : Option String := none
  target_type : Option String := none
  ports : List Int := []
  services : List String := []
  technologies : List String := []
  vulnerabilities : List String := []
  credentials : List Cred := []
  sessions : List Int := []
deriving DecidableEq, Repr

/-- `state.py` `TargetInfo.merge_from`: merge new target info into the
existing record, avoiding duplicates.  `list(set(a + b))` is modelled by
`(a ++ b).dedup`. -/
def TargetInfo.merge_from (self other : TargetInfo) : TargetInfo :=
  { primary_target := pyOrStr other.primary_target self.primary_target
    target_type := pyOrStr other.target_type self.target_type
    ports := (self.ports ++ other.ports).dedup
    services := (self.services ++ other.services).dedup
    technologies := (self.technologies ++ other.technologies).dedup
    vulnerabilities := (self.vulnerabilities ++ other.vulnerabilities).dedup
    credentials :=
      self.credentials ++ other.credentials.filter (· ∉ self.credentials)
    sessions := (self.sessions ++ other.sessions).dedup }

/-- `state.py` `PhaseTransitionRequest.model_dump()` as stored in
`phase_transition_pending` and read back with `dict.get` and a default:
each field is `Option`-valued, `none` modelling an absent key (the nodes
read the stored dict only through `.get(key, default)`). -/
structure PendingTransition where
  from_phase : Option String := none
  to_phase : Option String := none
  reason : Option String := none
  planned_actions : Option (List String) := none
  risks : Option (List String) := none
  requires_approval : Option Bool := none
deriving DecidableEq, Repr

/-- `state.py` `PhaseTransitionDecision`: phase-transition payload of an
LLM decision. -/
structure PhaseTransitionDecision where
  to_phase : String
  reason : String := ""
  planned_actions : List String := []
  risks : List String := []
deriving DecidableEq, Repr

/-- `state.py` `TodoItemUpdate`. -/
structure TodoItemUpdate where
  id : Option String := none
  description : String
  status : String := "pending"
  priority : String := "medium"
deriving DecidableEq, Repr

/-- Tool arguments: a Python `dict` of string keys/values. -/
abbrev ToolArgs := List (String × String)

/-- `state.py` `LLMDecision`: structured response of the think node. -/
structure LLMDecision where
  thought : String
  reasoning : String
  action : String := "use_tool"
  tool_name : Option String := none
  tool_args : Option ToolArgs := none
  phase_transition : Option PhaseTransitionDecision := none
  completion_reason : Option String := none
  updated_todo_list : List TodoItemUpdate := []
deriving DecidableEq, Repr

/-- `state.py` `ExecutionStep` (uuid/timestamp fields omitted). -/
structure ExecutionStep where
  iteration : Nat
  phase : String
  thought : String
  reasoning : String
  tool_name : Option String := none
  tool_args : Option ToolArgs := none
  tool_output : Option String := none
  output_analysis : Option String := none
  success : Bool := true
  error_message : Option String := none
deriving DecidableEq, Repr

/-- Result of `PhaseAwareToolExecutor.execute`: the uniform
`{success, output, error}` dict of the tool contract. -/
structure ToolResult where
  success : Bool
  output : Option String := none
  error : Option String := none
deriving DecidableEq, Repr

/-- `state.py` `AgentState`: the LangGraph session state.  Fields are
always present (a state mid-session has every key; `state.get(k, d)`
on such a state returns the stored value). -/
structure AgentState where
  messages : List Msg := []
  current_iteration : Nat := 0
  max_iterations : Nat := 30
  task_complete : Bool := false
  completion_reason : Option String := none
  current_phase : String := "informational"
  phase_history : List String := ["informational"]
  phase_transition_pending : Option PendingTransition := none
  execution_trace : List ExecutionStep := []
  todo_list : List TodoItemUpdate := []
  original_objective : String := ""
  target_info : TargetInfo := {}
  user_approval_response : Option String := none
  user_modification : Option String := none
  awaiting_user_approval : Bool := false
  _current_step : Option ExecutionStep := none
  _decision : Option LLMDecision := none
  _tool_result : Option ToolResult := none
  _just_transitioned_to : Option String := none
deriving DecidableEq, Repr

/-! ## `params.py`: configuration constants and the phase allow-list -/

/-- `params.py` `MAX_ITERATIONS`. -/
def MAX_ITERATIONS : Nat := 30

/-- `params.py` `REQUIRE_APPROVAL_FOR_EXPLOITATION`. -/
def REQUIRE_APPROVAL_FOR_EXPLOITATION : Bool := true

/-- `params.py` `REQUIRE_APPROVAL_FOR_POST_EXPLOITATION`. -/
def REQUIRE_APPROVAL_FOR_POST_EXPLOITATION : Bool := true

/-- `params.py` `TOOL_PHASE_MAP`: which tools are allowed in each phase. -/
def TOOL_PHASE_MAP : List (String × List String) :=
  [("query_graph", ["informational", "exploitation", "post_exploitation"]),
   ("execute_curl", ["informational", "exploitation", "post_exploitation"]),
   ("execute_naabu", ["informational", "exploitation", "post_exploitation"]),
   ("metasploit_console", ["exploitation", "post_exploitation"])]

/-- Python `TOOL_PHASE_MAP.get(tool_name, [])`. -/
def toolPhaseMapGet (tool_name : String) : List String :=
  match TOOL_PHASE_MAP.lookup tool_name with
  | some phases => phases
  | none => []

/-- `params.py` `is_tool_allowed_in_phase`: check if a tool is allowed in
the given phase. -/
def is_tool_allowed_in_phase (tool_name phase : String) : Bool :=
  phase ∈ toolPhaseMapGet tool_name

/-! ## Tool executor (phase gate) -/

/-- Modelled from the spec: `PhaseAwareToolExecutor.execute` (the `tools`
module is not under `src/`; only `orchestrator.py` imports it).  Per
§4.3 the executor "must reject (success=false, explanatory error, no
underlying call made) any tool not present in the phase's allow-list"
and per §7 the descriptive error string is "returned as the 'tool
output'"; otherwise it is "strictly the gate-check plus dispatch to the
correct backend by name".  The dispatch to the backend is abstracted as
the function argument `backend`; in the reject branch `backend` is not
applied. -/
def executorExecute (backend : String → ToolArgs → ToolResult)
    (tool_name : String) (args : ToolArgs) (phase : String) : ToolResult :=
  if is_tool_allowed_in_phase tool_name phase then
    backend tool_name args
  else
    let msg := "Tool '" ++ tool_name ++ "' is not allowed in phase '" ++
      phase ++ "'"
    { success := false, output := some msg, error := some msg }

/-! ## CVE pattern extraction (`re.findall(r'CVE-\d{4}-\d+', ...)`) -/

/-- Case-insensitive match of one pattern character against an input
character (the letters `C`, `V`, `E` with `re.IGNORECASE`). -/
def charCI (p c : Char) : Bool := c.toLower = p.toLower

/-- Greedily take leading digits. -/
def takeDigits : List Char → List Char × List Char
  | [] => ([], [])
  | c :: cs =>
    if c.isDigit then
      let (ds, rest) := takeDigits cs
      (c :: ds, rest)
    else ([], c :: cs)

/-- Match the pattern `CVE-\d{4}-\d+` (case-insensitive) at the head of
the input; returns the matched characters. -/
def matchCVEAt (cs : List Char) : Option (List Char) :=
  match cs with
  | c1 :: c2 :: c3 :: c4 :: rest =>
    if charCI 'C' c1 && charCI 'V' c2 && charCI 'E' c3 && c4 = '-' then
      match rest with
      | d1 :: d2 :: d3 :: d4 :: c5 :: rest2 =>
        if d1.isDigit && d2.isDigit && d3.isDigit && d4.isDigit &&
            c5 = '-' then
          let (ds, _) := takeDigits rest2
          if ds = [] then none
          else some ([c1, c2, c3, c4, d1, d2, d3, d4, c5] ++ ds)
        else none
      | _ => none
    else none
  | _ => none

/-- Leftmost match of `re.findall(r'CVE-\d{4}-\d+', s, re.IGNORECASE)`
(the orchestrator only uses `cve_matches[0]`). -/
def findCVE : List Char → Option String
  | [] => none
  | c :: cs =>
    match matchCVEAt (c :: cs) with
    | some m => some (String.mk m)
    | none => findCVE cs

/-- The forced default `metasploit_console` arguments built by the think
node when suppressing a transition in the exploitation phase: a `search`
command for the first CVE id found in the objective, else a generic
search. -/
def forcedMetasploitArgs (objective : String) : ToolArgs :=
  match findCVE objective.data with
  | some cve => [("command", "search " ++ cve)]
  | none => [("command", "search type:exploit")]

/-! ## Node functions of `orchestrator.py` -/

/-- Objective extraction in `_initialize_node`: content of the latest
`HumanMessage`, else `""`. -/
def extractObjective (messages : List Msg) : String :=
  match messages.reverse.find? Msg.isHuman with
  | some m => m.content
  | none => ""

/-- `orchestrator.py` `_initialize_node` merged into the state (the
`user_id`/`project_id`/`session_id` fields it also writes are outside
this model).  When an approval response and a pending transition are
both truthy the node leaves every modelled field unchanged; otherwise it
refreshes the session fields, clearing `task_complete`,
`awaiting_user_approval` and `phase_transition_pending`, setting the
objective from the latest human message if not already set, and keeping
the stored values of the remaining keys (`state.get(k, default)`
returns the stored value on a mid-session state). -/
def initializeNode (s : AgentState) : AgentState :=
  if truthyOptStr s.user_approval_response &&
      s.phase_transition_pending.isSome then
    s
  else
    { s with
      task_complete := false
      original_objective :=
        if s.original_objective = "" then extractObjective s.messages
        else s.original_objective
      awaiting_user_approval := false
      phase_transition_pending := none }

/-- The dict of state updates returned by `_think_node`.  Keys the node
sets only on some branches are `Option`-valued, `none` meaning the key
is absent from the returned dict (LangGraph then keeps the old value). -/
structure ThinkUpdates where
  current_iteration : Nat
  todo_list : List TodoItemUpdate
  _current_step : ExecutionStep
  _decision : LLMDecision
  task_complete : Option Bool := none
  completion_reason : Option String := none
  phase_transition_pending : Option PendingTransition := none
  awaiting_user_approval : Option Bool := none
  current_phase : Option String := none
  phase_history : Option (List String) := none
deriving DecidableEq, Repr

/-- The in-place rewrite `_think_node` applies to `updates["_decision"]`
when it suppresses a same-phase or just-transitioned transition request:
in the exploitation phase with no tool chosen, force a
`metasploit_console` search; with a tool chosen, turn the decision into
`use_tool`; otherwise leave the decision unchanged.  (The source
duplicates this block verbatim in both suppression branches.) -/
def suppressedDecision (decision : LLMDecision) (phase objective : String) :
    LLMDecision :=
  if phase = "exploitation" && !truthyOptStr decision.tool_name then
    { decision with
      action := "use_tool"
      tool_name := some "metasploit_console"
      tool_args := some (forcedMetasploitArgs objective) }
  else if truthyOptStr decision.tool_name then
    { decision with action := "use_tool" }
  else
    decision

/-- Python `x or "default"` on an `Optional[str]`, yielding a string. -/
def pyOrStrD (new : Option String) (d : String) : String :=
  match new with
  | some v => if v = "" then d else v
  | none => d

/-- The target phase of a `transition_phase` decision:
`phase_transition.to_phase if phase_transition else "exploitation"`. -/
def decisionToPhase (decision : LLMDecision) : String :=
  match decision.phase_transition with
  | some pt => pt.to_phase
  | none => "exploitation"

/-- `orchestrator.py` `_think_node`, with the already-parsed LLM decision
as an argument (the LLM call is an external black box). -/
def thinkNode (s : AgentState) (decision : LLMDecision) : ThinkUpdates :=
  let iteration := s.current_iteration + 1
  let phase := s.current_phase
  let just_transitioned := s._just_transitioned_to
  let step : ExecutionStep :=
    { iteration := iteration
      phase := phase
      thought := decision.thought
      reasoning := decision.reasoning
      tool_name :=
        if decision.action = "use_tool" then decision.tool_name else none
      tool_args :=
        if decision.action = "use_tool" then decision.tool_args else none }
  let todo_list :=
    if decision.updated_todo_list = [] then s.todo_list
    else decision.updated_todo_list
  let base : ThinkUpdates :=
    { current_iteration := iteration
      todo_list := todo_list
      _current_step := step
      _decision := decision }
  if decision.action = "complete" then
    { base with
      task_complete := some true
      completion_reason :=
        some (pyOrStrD decision.completion_reason "Task completed") }
  else if decision.action = "transition_phase" then
    let to_phase := decisionToPhase decision
    if to_phase = phase then
      { base with
        _decision := suppressedDecision decision phase s.original_objective }
    else if (match just_transitioned with
             | some j => j ≠ "" && to_phase = j
             | none => false) then
      { base with
        _decision := suppressedDecision decision phase s.original_objective }
    else
      let needs_approval :=
        (to_phase = "exploitation" && REQUIRE_APPROVAL_FOR_EXPLOITATION) ||
        (to_phase = "post_exploitation" &&
          REQUIRE_APPROVAL_FOR_POST_EXPLOITATION)
      if needs_approval then
        { base with
          phase_transition_pending := some
            { from_phase := some phase
              to_phase := some to_phase
              reason := some (match decision.phase_transition with
                | some pt => pt.reason
                | none => "")
              planned_actions := some (match decision.phase_transition with
                | some pt => pt.planned_actions
                | none => [])
              risks := some (match decision.phase_transition with
                | some pt => pt.risks
                | none => [])
              requires_approval := some true }
          awaiting_user_approval := some true }
      else
        { base with
          current_phase := some to_phase
          phase_history := some (s.phase_history ++ [to_phase]) }
  else
    base

/-- Merge a `_think_node` update dict into the state.  The update always
contains `_just_transitioned_to = None` (the marker is cleared), and a
key absent from the update keeps its previous value. -/
def applyThink (s : AgentState) (u : ThinkUpdates) : AgentState :=
  { s with
    current_iteration := u.current_iteration
    todo_list := u.todo_list
    _current_step := some u._current_step
    _decision := some u._decision
    _just_transitioned_to := none
    task_complete := u.task_complete.getD s.task_complete
    completion_reason :=
      match u.completion_reason with
      | some c => some c
      | none => s.completion_reason
    phase_transition_pending :=
      match u.phase_transition_pending with
      | some p => some p
      | none => s.phase_transition_pending
    awaiting_user_approval :=
      u.awaiting_user_approval.getD s.awaiting_user_approval
    current_phase := u.current_phase.getD s.current_phase
    phase_history := u.phase_history.getD s.phase_history }

/-- The empty step dict produced by `state.get("_current_step") or {}`
when no step was stored (unreachable through the graph, where think
always stores a step before `execute_tool` runs). -/
def emptyStep : ExecutionStep :=
  { iteration := 0, phase := "", thought := "", reasoning := "" }

/-- `orchestrator.py` `_execute_tool_node`, merged into the state.  The
executor's backend dispatch is the `backend` argument; the `result or
{...}` guard for a `None` result is dropped because the modelled
executor always returns a result record. -/
def executeToolNode (backend : String → ToolArgs → ToolResult)
    (s : AgentState) : AgentState :=
  let step := s._current_step.getD emptyStep
  let tool_name := step.tool_name
  let tool_args := step.tool_args.getD []
  let phase := s.current_phase
  if !truthyOptStr tool_name then
    let step1 := { step with
      tool_output := some "Error: No tool specified"
      success := false
      error_message := some "No tool name provided" }
    { s with
      _current_step := some step1
      _tool_result := some
        { success := false, error := some "No tool name provided" } }
  else
    let result := executorExecute backend (tool_name.getD "") tool_args phase
    let step1 := { step with
      tool_output := some (result.output.getD "")
      success := result.success
      error_message := result.error }
    { s with _current_step := some step1, _tool_result := some result }

/-- `state.py` `ExtractedTargetInfo`: target info extracted by the
output-analysis LLM call (note: it carries no `target_type`). -/
structure ExtractedTargetInfo where
  primary_target : Option String := none
  ports : List Int := []
  services : List String := []
  technologies : List String := []
  vulnerabilities : List String := []
  credentials : List Cred := []
  sessions : List Int := []
deriving DecidableEq, Repr

/-- `state.py` `OutputAnalysis`: structured response of the
output-analysis LLM call. -/
structure OutputAnalysis where
  interpretation : String
  extracted_info : ExtractedTargetInfo := {}
  actionable_findings : List String := []
  recommended_next_steps : List String := []
deriving DecidableEq, Repr

/-- `orchestrator.py` `_analyze_output_node`, merged into the state,
with the already-parsed analysis as an argument (the LLM call is
external).  It completes the current step with the interpretation,
union-merges the extracted intelligence into `target_info` (building a
`TargetInfo` whose `target_type` is `None`), appends the completed step
to the trace and an assistant message to the conversation. -/
def analyzeOutputNode (s : AgentState) (analysis : OutputAnalysis) :
    AgentState :=
  let step_data := s._current_step.getD emptyStep
  let tool_output0 := step_data.tool_output.getD ""
  let tool_output :=
    if tool_output0 = "" then
      pyOrStrD step_data.error_message "No output received from tool"
    else tool_output0
  let step1 := { step_data with
    output_analysis := some analysis.interpretation }
  let extracted := analysis.extracted_info
  let new_target : TargetInfo :=
    { primary_target := extracted.primary_target
      ports := extracted.ports
      services := extracted.services
      technologies := extracted.technologies
      vulnerabilities := extracted.vulnerabilities
      credentials := extracted.credentials
      sessions := extracted.sessions }
  let merged_target := s.target_info.merge_from new_target
  let analysis_summary :=
    if analysis.interpretation = "" then String.mk (tool_output.data.take 500)
    else analysis.interpretation
  { s with
    _current_step := some step1
    execution_trace := s.execution_trace ++ [step1]
    target_info := merged_target
    messages := s.messages ++ [Msg.ai
      ("**Step " ++ toString step1.iteration ++ "** [" ++
        s.current_phase ++ "]\n\n" ++ analysis_summary)] }

/-- Python `"\n".join`. -/
def joinLines : List String → String
  | [] => ""
  | [x] => x
  | x :: y :: xs => x ++ "\n" ++ joinLines (y :: xs)

/-- `transition.get(key, default)` on the stored pending-transition dict
(`none` models the `{}` default of `state.get("phase_transition_pending",
\x7b\x7d)`). -/
def pendingGetStr (p : Option PendingTransition)
    (get : PendingTransition → Option String) (d : String) : String :=
  match p with
  | some t => (get t).getD d
  | none => d

/-- `transition.get(key, [])` for the list-valued keys. -/
def pendingGetList (p : Option PendingTransition)
    (get : PendingTransition → Option (List String)) : List String :=
  match p with
  | some t => (get t).getD []
  | none => []

/-- `prompts.py` `PHASE_TRANSITION_MESSAGE` instantiated exactly as in
`_await_approval_node`: each planned action and risk becomes a `"- "`
bullet line, and an empty rendered list falls back to the placeholder
line (Python `planned_actions or "- No specific actions planned"`). -/
def phaseTransitionMessage (p : Option PendingTransition) : String :=
  let planned_actions := joinLines
    ((pendingGetList p PendingTransition.planned_actions).map
      (fun a => "- " ++ a))
  let risks := joinLines
    ((pendingGetList p PendingTransition.risks).map (fun r => "- " ++ r))
  "## Phase Transition Request\n\nI need your approval to proceed from **" ++
  (pendingGetStr p PendingTransition.from_phase "informational" ++
  ("** to **" ++
  (pendingGetStr p PendingTransition.to_phase "exploitation" ++
  ("**.\n\n### Reason\n" ++
  (pendingGetStr p PendingTransition.reason "No reason provided" ++
  ("\n\n### Planned Actions\n" ++
  ((if planned_actions = "" then "- No specific actions planned"
    else planned_actions) ++
  ("\n\n### Potential Risks\n" ++
  ((if risks = "" then "- Standard penetration testing risks apply"
    else risks) ++
  ("\n\n---\n\nPlease respond with:\n- **Approve** - Proceed with the " ++
  ("transition\n- **Modify** - Modify the plan (provide your changes)\n" ++
  "- **Abort** - Cancel and stay in current phase\n")))))))))))

/-- `orchestrator.py` `_await_approval_node`, merged into the state. -/
def awaitApprovalNode (s : AgentState) : AgentState :=
  { s with
    awaiting_user_approval := true
    messages := s.messages ++
      [Msg.ai (phaseTransitionMessage s.phase_transition_pending)] }

/-- `orchestrator.py` `_process_approval_node`, merged into the state.
Every branch spreads `clear_approval_state`, which resets the four
approval-gate fields. -/
def processApprovalNode (s : AgentState) : AgentState :=
  let transition := s.phase_transition_pending
  let cleared := { s with
    awaiting_user_approval := false
    phase_transition_pending := (none : Option PendingTransition)
    user_approval_response := (none : Option String)
    user_modification := (none : Option String) }
  if s.user_approval_response = some "approve" then
    let new_phase := pendingGetStr transition PendingTransition.to_phase
      "exploitation"
    { cleared with
      current_phase := new_phase
      phase_history := s.phase_history ++ [new_phase]
      messages := s.messages ++ [Msg.ai
        ("Phase transition approved. Now in **" ++ new_phase ++
          "** phase.")]
      _just_transitioned_to := some new_phase }
  else if s.user_approval_response = some "modify" then
    { cleared with
      messages := s.messages ++
        [Msg.human ("User modification: " ++
          (s.user_modification.getD "None")),
         Msg.ai "Understood. Adjusting approach based on your feedback."] }
  else
    { cleared with
      task_complete := true
      completion_reason := some "Phase transition cancelled by user"
      messages := s.messages ++
        [Msg.ai "Phase transition cancelled. Ending session."] }

/-! ## Routing functions and graph edges of `orchestrator.py` -/

/-- `_route_after_initialize`. -/
def routeAfterInitialize (s : AgentState) : String :=
  if truthyOptStr s.user_approval_response &&
      s.phase_transition_pending.isSome then
    "process_approval"
  else "think"

/-- `_route_after_think`: priority order max-iterations, task-complete,
awaiting-approval, then the decision's action. -/
def routeAfterThink (s : AgentState) : String :=
  if s.max_iterations ≤ s.current_iteration then "generate_response"
  else if s.task_complete then "generate_response"
  else if s.awaiting_user_approval then "await_approval"
  else
    let action :=
      match s._decision with
      | some d => d.action
      | none => "use_tool"
    let tool_name := s._decision.bind LLMDecision.tool_name
    if action = "complete" then "generate_response"
    else if action = "transition_phase" then
      if s.phase_transition_pending.isSome then "await_approval"
      else if truthyOptStr tool_name then "execute_tool"
      else "generate_response"
    else if action = "use_tool" && truthyOptStr tool_name then
      "execute_tool"
    else "generate_response"

/-- `_route_after_analyze`. -/
def routeAfterAnalyze (s : AgentState) : String :=
  if s.task_complete then "generate_response"
  else if s.max_iterations ≤ s.current_iteration then "generate_response"
  else "think"

/-- `_route_after_approval`. -/
def routeAfterApproval (s : AgentState) : String :=
  if s.task_complete then "generate_response" else "think"

/-- The unconditional graph edge `execute_tool → analyze_output` added in
`_build_graph` (`builder.add_edge("execute_tool", "analyze_output")`). -/
def edgeAfterExecuteTool : String := "analyze_output"

/-! ## Decision parsing (`_extract_json`, `_parse_llm_decision`) -/

/-- The opening brace character (spelled via its code point). -/
def lbrace : Char := Char.ofNat 123

/-- The closing brace character (spelled via its code point). -/
def rbrace : Char := Char.ofNat 125

/-- `_extract_json`: slice from the first opening brace to the last
closing brace (Python `find` / `rfind`), `None` when the slice would be
empty or reversed. -/
def extractJson (response_text : String) : Option String :=
  let cs := response_text.data
  match cs.findIdx? (· = lbrace) with
  | none => none
  | some json_start =>
    match cs.reverse.findIdx? (· = rbrace) with
    | none => none
    | some revIdx =>
      let json_end := cs.length - revIdx
      if json_start < json_end then
        some (String.mk ((cs.drop json_start).take (json_end - json_start)))
      else none

/-- The fallback `LLMDecision` built by `_parse_llm_decision` when
extraction or Pydantic validation fails. -/
def fallbackDecision (response_text : String) : LLMDecision :=
  { thought := response_text
    reasoning := "Failed to parse structured response"
    action := "complete"
    completion_reason := some "Unable to continue due to response parsing error"
    updated_todo_list := [] }

/-- `_parse_llm_decision`, with Pydantic's
`LLMDecision.model_validate_json` abstracted as `validate` (`none`
models a raised validation error, caught by the `except` clause). -/
def parseLLMDecision (validate : String → Option LLMDecision)
    (response_text : String) : LLMDecision :=
  match extractJson response_text with
  | some json_str =>
    match validate json_str with
    | some d => d
    | none => fallbackDecision response_text
  | none => fallbackDecision response_text

/-! ## Helper lemmas -/

/-- Two lists hold the same set of elements. -/
def EqAsSets {α : Type} (xs ys : List α) : Prop := ∀ x, x ∈ xs ↔ x ∈ ys

/-- `needle` occurs verbatim (as a contiguous substring) in `hay`. -/
def StrInfixOf (needle hay : String) : Prop := needle.data <:+: hay.data

instance (a b : String) : Decidable (StrInfixOf a b) :=
  List.decidableInfix a.data b.data

lemma eqAsSets_dedup_absorb {α : Type} [DecidableEq α] (xs ys : List α) :
    EqAsSets (((xs ++ ys).dedup ++ ys).dedup) ((xs ++ ys).dedup) := by
  intro x
  simp only [List.mem_dedup, List.mem_append]
  tauto

lemma eqAsSets_dedup_comm {α : Type} [DecidableEq α] (xs ys : List α) :
    EqAsSets ((xs ++ ys).dedup) ((ys ++ xs).dedup) := by
  intro x
  simp only [List.mem_dedup, List.mem_append]
  tauto

lemma pyOrStr_truthy {new : Option String} (old : Option String)
    (h : truthyOptStr new = true) : pyOrStr new old = new := by
  cases new with
  | none => simp [truthyOptStr] at h
  | some v =>
    simp only [truthyOptStr, decide_eq_true_eq] at h
    simp [pyOrStr, h]

lemma pyOrStr_falsy {new : Option String} (old : Option String)
    (h : truthyOptStr new = false) : pyOrStr new old = old := by
  cases new with
  | none => rfl
  | some v =>
    simp only [truthyOptStr, decide_eq_false_iff_not, not_not] at h
    simp [pyOrStr, h]

lemma strInfixOf_append_left (x : String) {a y : String}
    (h : StrInfixOf a y) : StrInfixOf a (x ++ y) := by
  unfold StrInfixOf at *
  rw [String.data_append]
  exact h.trans (List.suffix_append x.data y.data).isInfix

lemma strInfixOf_append_right {a x : String} (h : StrInfixOf a x)
    (z : String) : StrInfixOf a (x ++ z) := by
  unfold StrInfixOf at *
  rw [String.data_append]
  exact h.trans (List.prefix_append x.data z.data).isInfix

lemma strInfixOf_refl (a : String) : StrInfixOf a a := List.infix_rfl

lemma strInfixOf_joinLines {x : String} {l : List String} (h : x ∈ l) :
    StrInfixOf x (joinLines l) := by
  induction l with
  | nil => cases h
  | cons y ys ih =>
    cases ys with
    | nil =>
      have hx : x = y := by simpa using h
      subst hx
      exact strInfixOf_refl x
    | cons z zs =>
      rcases List.mem_cons.mp h with h1 | h2
      · subst h1
        show StrInfixOf x (x ++ "\n" ++ joinLines (z :: zs))
        exact strInfixOf_append_right
          (strInfixOf_append_right (strInfixOf_refl x) "\n")
          (joinLines (z :: zs))
      · show StrInfixOf x (y ++ "\n" ++ joinLines (z :: zs))
        exact strInfixOf_append_left (y ++ "\n") (ih h2)

lemma strInfixOf_joinLines_dash {a : String} {l : List String}
    (h : a ∈ l) : StrInfixOf a (joinLines (l.map (fun b => "- " ++ b))) := by
  have hm : ("- " ++ a) ∈ l.map (fun b => "- " ++ b) :=
    List.mem_map_of_mem _ h
  have h1 : StrInfixOf a ("- " ++ a) := by
    unfold StrInfixOf
    rw [String.data_append]
    exact (List.suffix_append _ _).isInfix
  exact List.IsInfix.trans h1 (strInfixOf_joinLines hm)

lemma joinLines_cons_data (m : String) (rest : List String) :
    ∃ t, (joinLines (m :: rest)).data = m.data ++ t := by
  cases rest with
  | nil => exact ⟨[], by simp [joinLines]⟩
  | cons y ys =>
    refine ⟨"\n".data ++ (joinLines (y :: ys)).data, ?_⟩
    show ((m ++ "\n" ++ joinLines (y :: ys)) : String).data = _
    simp [String.data_append, List.append_assoc]

lemma joinLines_dash_ne_empty {l : List String} (h : l ≠ []) :
    joinLines (l.map (fun b => "- " ++ b)) ≠ "" := by
  cases l with
  | nil => exact absurd rfl h
  | cons x xs =>
    intro hEq
    rw [List.map_cons] at hEq
    obtain ⟨t, ht⟩ :=
      joinLines_cons_data ("- " ++ x) (xs.map (fun b => "- " ++ b))
    rw [hEq, String.data_append, show "- ".data = [Char.ofNat 45,
      Char.ofNat 32] from rfl] at ht
    simp at ht

/-! ## Claim theorems -/

/-- C7: `TargetInfo.merge_from` is idempotent and commutative on the
set-valued fields (ports, services, technologies, vulnerabilities,
sessions) when results are compared as sets; the scalar fields take the
incoming value exactly when it is truthy (non-`None`, non-empty) and
otherwise keep the old value; and credentials are appended with
duplicates suppressed against the existing list: membership in the
merged credential list is membership in either input, and a credential
already present keeps its exact multiplicity (no duplicate copy is
appended). -/
theorem targetInfo_merge_idem_comm_scalar_creds (a b : TargetInfo) :
    (EqAsSets ((a.merge_from b).merge_from b).ports (a.merge_from b).ports ∧
     EqAsSets ((a.merge_from b).merge_from b).services
       (a.merge_from b).services ∧
     EqAsSets ((a.merge_from b).merge_from b).technologies
       (a.merge_from b).technologies ∧
     EqAsSets ((a.merge_from b).merge_from b).vulnerabilities
       (a.merge_from b).vulnerabilities ∧
     EqAsSets ((a.merge_from b).merge_from b).sessions
       (a.merge_from b).sessions) ∧
    (EqAsSets (a.merge_from b).ports (b.merge_from a).ports ∧
     EqAsSets (a.merge_from b).services (b.merge_from a).services ∧
     EqAsSets (a.merge_from b).technologies (b.merge_from a).technologies ∧
     EqAsSets (a.merge_from b).vulnerabilities
       (b.merge_from a).vulnerabilities ∧
     EqAsSets (a.merge_from b).sessions (b.merge_from a).sessions) ∧
    ((truthyOptStr b.primary_target = true →
        (a.merge_from b).primary_target = b.primary_target) ∧
     (truthyOptStr b.primary_target = false →
        (a.merge_from b).primary_target = a.primary_target) ∧
     (truthyOptStr b.target_type = true →
        (a.merge_from b).target_type = b.target_type) ∧
     (truthyOptStr b.target_type = false →
        (a.merge_from b).target_type = a.target_type)) ∧
    ((∀ c, c ∈ (a.merge_from b).credentials ↔
        c ∈ a.credentials ∨ c ∈ b.credentials) ∧
     (∀ c, c ∈ a.credentials →
        (a.merge_from b).credentials.count c = a.credentials.count c)) := by
  refine ⟨⟨?_, ?_, ?_, ?_, ?_⟩, ⟨?_, ?_, ?_, ?_, ?_⟩, ⟨?_, ?_, ?_, ?_⟩,
    ?_, ?_⟩ <;>
    simp only [TargetInfo.merge_from]
  · exact eqAsSets_dedup_absorb a.ports b.ports
  · exact eqAsSets_dedup_absorb a.services b.services
  · exact eqAsSets_dedup_absorb a.technologies b.technologies
  · exact eqAsSets_dedup_absorb a.vulnerabilities b.vulnerabilities
  · exact eqAsSets_dedup_absorb a.sessions b.sessions
  · exact eqAsSets_dedup_comm a.ports b.ports
  · exact eqAsSets_dedup_comm a.services b.services
  · exact eqAsSets_dedup_comm a.technologies b.technologies
  · exact eqAsSets_dedup_comm a.vulnerabilities b.vulnerabilities
  · exact eqAsSets_dedup_comm a.sessions b.sessions
  · exact fun h => pyOrStr_truthy a.primary_target h
  · exact fun h => pyOrStr_falsy a.primary_target h
  · exact fun h => pyOrStr_truthy a.target_type h
  · exact fun h => pyOrStr_falsy a.target_type h
  · intro c
    simp only [List.mem_append, List.mem_filter, decide_eq_true_eq]
    tauto
  · intro c hc
    rw [List.count_append, add_right_eq_self, List.count_eq_zero]
    simp only [List.mem_filter, decide_eq_true_eq]
    tauto

/-- C7 witness: the merge properties evaluated at concrete target-info
records (truthy incoming primary target; one shared credential). -/
theorem targetInfo_merge_witness :
    truthyOptStr (TargetInfo.mk (some "10.0.0.5") none [443, 22] [] [] []
        [[("user", "root")], [("user", "admin")]] []).primary_target
      = true ∧
    (TargetInfo.merge_from
        { primary_target := none, ports := [80, 443],
          credentials := [[("user", "root")]] }
        { primary_target := some "10.0.0.5", ports := [443, 22],
          credentials :=
            [[("user", "root")], [("user", "admin")]] }).primary_target
      = some "10.0.0.5" ∧
    [("user", "root")] ∈
      (TargetInfo.merge_from
        { primary_target := none, ports := [80, 443],
          credentials := [[("user", "root")]] }
        { primary_target := some "10.0.0.5", ports := [443, 22],
          credentials :=
            [[("user", "root")], [("user", "admin")]] }).credentials ∧
    (TargetInfo.merge_from
        { primary_target := none, ports := [80, 443],
          credentials := [[("user", "root")]] }
        { primary_target := some "10.0.0.5", ports := [443, 22],
          credentials :=
            [[("user", "root")], [("user", "admin")]] }).credentials.count
        [("user", "root")] = 1 := by
  have h := targetInfo_merge_idem_comm_scalar_creds
    { primary_target := none, ports := [80, 443],
      credentials := [[("user", "root")]] }
    { primary_target := some "10.0.0.5", ports := [443, 22],
      credentials := [[("user", "root")], [("user", "admin")]] }
  refine ⟨by decide, h.2.2.1.1 (by decide), ?_, ?_⟩
  · exact (h.2.2.2.1 [("user", "root")]).mpr (Or.inl (by decide))
  · have := h.2.2.2.2 [("user", "root")] (by decide)
    simpa using this

/-- C4: after `process_approval` runs — for every input state, hence for
every approval decision value (approve, modify, abort, or anything
else) — the resulting state has `awaiting_user_approval = false`,
`phase_transition_pending = None`, `user_approval_response = None` and
`user_modification = None`: every branch of the node spreads
`clear_approval_state`. -/
theorem processApproval_clears_gate (s : AgentState) :
    (processApprovalNode s).awaiting_user_approval = false ∧
    (processApprovalNode s).phase_transition_pending = none ∧
    (processApprovalNode s).user_approval_response = none ∧
    (processApprovalNode s).user_modification = none := by
  unfold processApprovalNode
  by_cases h1 : s.user_approval_response = some "approve" <;>
    by_cases h2 : s.user_approval_response = some "modify" <;>
    simp [h1, h2]

/-- C6: processing the approval decision `abort` on a state with a
pending Transition Request yields `task_complete = true` and a
completion reason mentioning cancellation, and leaves `phase_history`
and `current_phase` unchanged. -/
theorem processApproval_abort_cancels (s : AgentState)
    (hp : s.phase_transition_pending.isSome = true)
    (h : s.user_approval_response = some "abort") :
    (processApprovalNode s).task_complete = true ∧
    (processApprovalNode s).completion_reason =
      some "Phase transition cancelled by user" ∧
    StrInfixOf "cancelled" "Phase transition cancelled by user" ∧
    (processApprovalNode s).phase_history = s.phase_history ∧
    (processApprovalNode s).current_phase = s.current_phase := by
  have h1 : ¬ s.user_approval_response = some "approve" := by simp [h]
  have h2 : ¬ s.user_approval_response = some "modify" := by simp [h]
  unfold processApprovalNode
  refine ⟨by simp [h1, h2], by simp [h1, h2], by decide,
    by simp [h1, h2], by simp [h1, h2]⟩

/-- A concrete state suspended at the approval gate with decision
`abort` supplied. -/
def abortApprovalState : AgentState :=
  { user_approval_response := some "abort"
    awaiting_user_approval := true
    phase_transition_pending := some
      { from_phase := some "informational"
        to_phase := some "exploitation"
        reason := some "need msf" } }

/-- C6 witness: the abort outcome evaluated on a concrete suspended
state. -/
theorem processApproval_abort_cancels_witness :
    abortApprovalState.phase_transition_pending.isSome = true ∧
    (processApprovalNode abortApprovalState).task_complete = true ∧
    (processApprovalNode abortApprovalState).phase_history =
      abortApprovalState.phase_history ∧
    (processApprovalNode abortApprovalState).current_phase =
      abortApprovalState.current_phase := by
  have h := processApproval_abort_cancels abortApprovalState rfl rfl
  exact ⟨rfl, h.1, h.2.2.2.1, h.2.2.2.2⟩

/-- C2: `current_iteration` never decreases across the nodes of one
traversal — `initialize` preserves it and `think` increments it by
exactly one — and whenever `current_iteration >= max_iterations` both
`_route_after_think` and `_route_after_analyze` route to
`generate_response`. -/
theorem iteration_monotone_and_capped (s : AgentState) (d : LLMDecision)
    (backend : String → ToolArgs → ToolResult) (an : OutputAnalysis) :
    (initializeNode s).current_iteration = s.current_iteration ∧
    (applyThink s (thinkNode s d)).current_iteration =
      s.current_iteration + 1 ∧
    (executeToolNode backend s).current_iteration = s.current_iteration ∧
    (analyzeOutputNode s an).current_iteration = s.current_iteration ∧
    (awaitApprovalNode s).current_iteration = s.current_iteration ∧
    (processApprovalNode s).current_iteration = s.current_iteration ∧
    (s.max_iterations ≤ s.current_iteration →
      routeAfterThink s = "generate_response" ∧
      routeAfterAnalyze s = "generate_response") := by
  refine ⟨?_, ?_, ?_, rfl, rfl, ?_, fun h => ⟨?_, ?_⟩⟩
  · unfold initializeNode
    split <;> rfl
  · show (thinkNode s d).current_iteration = s.current_iteration + 1
    simp only [thinkNode]
    split_ifs <;> rfl
  · simp only [executeToolNode]
    split <;> rfl
  · unfold processApprovalNode
    by_cases h1 : s.user_approval_response = some "approve" <;>
      by_cases h2 : s.user_approval_response = some "modify" <;>
      simp [h1, h2]
  · unfold routeAfterThink
    simp [h]
  · unfold routeAfterAnalyze
    split
    · rfl
    · simp [h]

/-- A concrete session state already at the iteration cap. -/
def cappedState : AgentState :=
  { current_iteration := 30, max_iterations := 30 }

/-- A concrete tool-use decision. -/
def plainToolDecision : LLMDecision :=
  { thought := "check the graph"
    reasoning := "need recon data"
    action := "use_tool"
    tool_name := some "query_graph" }

/-- C2 witness: the iteration bound evaluated at a concrete state on the
cap. -/
theorem iteration_monotone_and_capped_witness :
    cappedState.max_iterations ≤ cappedState.current_iteration ∧
    routeAfterThink cappedState = "generate_response" ∧
    routeAfterAnalyze cappedState = "generate_response" ∧
    (applyThink cappedState
      (thinkNode cappedState plainToolDecision)).current_iteration = 31 ∧
    (analyzeOutputNode cappedState
      { interpretation := "open ports found" }).current_iteration = 30 := by
  have h := iteration_monotone_and_capped cappedState plainToolDecision
    (fun _ _ => { success := true }) { interpretation := "open ports found" }
  have h2 := h.2.2.2.2.2.2 (by decide)
  exact ⟨by decide, h2.1, h2.2, h.2.1, h.2.2.2.1⟩

/-- C9: invoking the graph with a new user message on a session
suspended at the approval gate (`awaiting_user_approval = true`, a
pending Transition Request stored, no `user_approval_response`
supplied) makes the initialize node reset `awaiting_user_approval` to
false, `phase_transition_pending` to `None` and `task_complete` to
false, and route to `think` — the pending request is silently
discarded. -/
theorem initialize_discards_pending (s : AgentState)
    (p : PendingTransition)
    (h1 : s.user_approval_response = none)
    (h2 : s.phase_transition_pending = some p)
    (h3 : s.awaiting_user_approval = true) :
    (initializeNode s).awaiting_user_approval = false ∧
    (initializeNode s).phase_transition_pending = none ∧
    (initializeNode s).task_complete = false ∧
    routeAfterInitialize (initializeNode s) = "think" := by
  refine ⟨?_, ?_, ?_, ?_⟩ <;>
    simp [initializeNode, routeAfterInitialize, truthyOptStr, h1]

/-- A concrete session suspended at the approval gate that receives a
fresh user message instead of an approval decision. -/
def suspendedState : AgentState :=
  { awaiting_user_approval := true
    phase_transition_pending := some
      { from_phase := some "informational"
        to_phase := some "exploitation"
        reason := some "ready to exploit" }
    user_approval_response := none
    messages := [Msg.human "keep going"] }

/-- C9 witness: the discard behaviour evaluated on a concrete suspended
state. -/
theorem initialize_discards_pending_witness :
    (initializeNode suspendedState).awaiting_user_approval = false ∧
    (initializeNode suspendedState).phase_transition_pending = none ∧
    (initializeNode suspendedState).task_complete = false ∧
    routeAfterInitialize (initializeNode suspendedState) = "think" :=
  initialize_discards_pending suspendedState
    { from_phase := some "informational"
      to_phase := some "exploitation"
      reason := some "ready to exploit" } rfl rfl rfl

/-- C1: a tool whose entry in `TOOL_PHASE_MAP` does not list the phase
(including any tool absent from the map) is not allowed in that phase —
in particular `metasploit_console` in `informational`; a rejected
execution is independent of the backend (no underlying call influences
the result) and returns `success = false` with an error; the execute
node records a rejected or failed execution in the current step as
`success = false` with an error message; and the graph edge after
`execute_tool` goes unconditionally to `analyze_output`. -/
theorem tool_phase_gate :
    (∀ tool phase : String, phase ∉ toolPhaseMapGet tool →
      is_tool_allowed_in_phase tool phase = false) ∧
    is_tool_allowed_in_phase "metasploit_console" "informational" = false ∧
    (∀ (backend1 backend2 : String → ToolArgs → ToolResult)
        (tool phase : String) (args : ToolArgs),
      is_tool_allowed_in_phase tool phase = false →
      executorExecute backend1 tool args phase =
        executorExecute backend2 tool args phase ∧
      (executorExecute backend1 tool args phase).success = false ∧
      (executorExecute backend1 tool args phase).error.isSome = true) ∧
    (∀ (backend : String → ToolArgs → ToolResult) (s : AgentState)
        (step : ExecutionStep) (t : String),
      s._current_step = some step → step.tool_name = some t →
      is_tool_allowed_in_phase t s.current_phase = false →
      (executeToolNode backend s)._current_step.isSome = true ∧
      ((executeToolNode backend s)._current_step.getD emptyStep).success
        = false ∧
      ((executeToolNode backend s)._current_step.getD
        emptyStep).error_message.isSome = true) ∧
    edgeAfterExecuteTool = "analyze_output" := by
  refine ⟨?_, rfl, ?_, ?_, rfl⟩
  · intro tool phase h
    simpa [is_tool_allowed_in_phase] using h
  · intro backend1 backend2 tool phase args h
    simp [executorExecute, h]
  · intro backend s step t h1 h2 h3
    by_cases ht : t = "" <;>
      simp [executeToolNode, executorExecute, h1, h2, h3, truthyOptStr, ht]

/-- A think step that requests the exploitation-only tool while the
session is still in the informational phase. -/
def deniedToolState : AgentState :=
  { current_phase := "informational"
    current_iteration := 1
    _current_step := some
      { iteration := 1
        phase := "informational"
        thought := "try msf"
        reasoning := "found a CVE"
        tool_name := some "metasploit_console"
        tool_args := some [("command", "search type:exploit")] } }

/-- A backend that would succeed if it were ever dispatched to. -/
def happyBackend : String → ToolArgs → ToolResult :=
  fun _ _ => { success := true, output := some "ok" }

/-- A backend that always fails, to witness backend-independence of the
rejection. -/
def failingBackend : String → ToolArgs → ToolResult :=
  fun _ _ => { success := false, error := some "backend down" }

/-- C1 witness: the phase gate evaluated at `metasploit_console` in the
informational phase, on a concrete step and two different backends. -/
theorem tool_phase_gate_witness :
    is_tool_allowed_in_phase "metasploit_console" "informational" = false ∧
    ((executeToolNode happyBackend deniedToolState)._current_step.getD
      emptyStep).success = false ∧
    ((executeToolNode happyBackend deniedToolState)._current_step.getD
      emptyStep).error_message.isSome = true ∧
    executorExecute happyBackend "metasploit_console" [] "informational" =
      executorExecute failingBackend "metasploit_console" []
        "informational" ∧
    edgeAfterExecuteTool = "analyze_output" := by
  have h := tool_phase_gate
  have hnode := h.2.2.2.1 happyBackend deniedToolState _ "metasploit_console"
    rfl rfl (by decide)
  have hexec := h.2.2.1 happyBackend failingBackend "metasploit_console"
    "informational" [] (by decide)
  exact ⟨h.2.1, hnode.2.1, hnode.2.2, hexec.1, h.2.2.2.2⟩

/-- C10: a `transition_phase` decision with a `None` payload defaults its
target phase to `exploitation` — from a different current phase (and
with no just-transitioned marker) this stores a pending approval
request with empty reason, planned actions and risks, and sets
`awaiting_user_approval`; and `process_approval` on an `approve`
decision whose stored pending request lacks a `to_phase` commits
`exploitation` by default. -/
theorem transition_defaults_to_exploitation :
    (∀ (s : AgentState) (d : LLMDecision),
      d.action = "transition_phase" → d.phase_transition = none →
      s.current_phase ≠ "exploitation" → s._just_transitioned_to = none →
      (thinkNode s d).phase_transition_pending = some
        { from_phase := some s.current_phase
          to_phase := some "exploitation"
          reason := some ""
          planned_actions := some []
          risks := some []
          requires_approval := some true } ∧
      (thinkNode s d).awaiting_user_approval = some true) ∧
    (∀ (s : AgentState) (p : PendingTransition),
      s.user_approval_response = some "approve" →
      s.phase_transition_pending = some p → p.to_phase = none →
      (processApprovalNode s).current_phase = "exploitation") := by
  constructor
  · intro s d ha hpt hph hjt
    have hto : decisionToPhase d = "exploitation" := by
      simp [decisionToPhase, hpt]
    have hne : ¬ ("exploitation" = s.current_phase) :=
      fun hh => hph hh.symm
    constructor <;>
      simp [thinkNode, ha, hne, hjt, hto,
        REQUIRE_APPROVAL_FOR_EXPLOITATION, hpt]
  · intro s p h1 h2 h3
    simp [processApprovalNode, h1, h2, pendingGetStr, h3]

/-- A decision requesting a phase transition with no payload at all. -/
def bareTransitionDecision : LLMDecision :=
  { thought := "move on"
    reasoning := "recon done"
    action := "transition_phase"
    phase_transition := none }

/-- A session whose stored pending request has no `to_phase` key, with
an approve decision supplied. -/
def approveNoTargetState : AgentState :=
  { user_approval_response := some "approve"
    phase_transition_pending := some { from_phase := some "informational" } }

/-- C10 witness: both defaulting paths evaluated at concrete inputs. -/
theorem transition_defaults_witness :
    (thinkNode { } bareTransitionDecision).awaiting_user_approval
      = some true ∧
    (thinkNode { } bareTransitionDecision).phase_transition_pending = some
      { from_phase := some "informational"
        to_phase := some "exploitation"
        reason := some ""
        planned_actions := some []
        risks := some []
        requires_approval := some true } ∧
    (processApprovalNode approveNoTargetState).current_phase
      = "exploitation" := by
  have h := transition_defaults_to_exploitation
  have ha := h.1 { } bareTransitionDecision rfl rfl (by decide) rfl
  have hb := h.2 approveNoTargetState { from_phase := some "informational" }
    rfl rfl rfl
  exact ⟨ha.2, ha.1, hb⟩

/-- C3 (amended): a `transition_phase` decision whose target phase
equals the current phase is suppressed — the think update stores no
pending request and does not set `awaiting_user_approval` — and the
cycle then routes either to a tool execution (`execute_tool`, via the
forced default `metasploit_console` search in the exploitation phase or
the decision's own tool) or directly to `generate_response`; it is
never a suspended approval request.  (The code has no think → think
edge: the no-tool fall-through routes to `generate_response`, not back
to `think`.) -/
theorem think_same_phase_no_approval (s : AgentState) (d : LLMDecision)
    (ha : d.action = "transition_phase")
    (hsame : decisionToPhase d = s.current_phase) :
    (thinkNode s d).phase_transition_pending = none ∧
    (thinkNode s d).awaiting_user_approval = none ∧
    (s.task_complete = false → s.awaiting_user_approval = false →
      s.phase_transition_pending = none →
      routeAfterThink (applyThink s (thinkNode s d)) = "execute_tool" ∨
      routeAfterThink (applyThink s (thinkNode s d)) =
        "generate_response") := by
  have hpend : (thinkNode s d).phase_transition_pending = none := by
    simp [thinkNode, ha, hsame]
  have hawait : (thinkNode s d).awaiting_user_approval = none := by
    simp [thinkNode, ha, hsame]
  have hdec : (thinkNode s d)._decision =
      suppressedDecision d s.current_phase s.original_objective := by
    simp [thinkNode, ha, hsame]
  have htc : (thinkNode s d).task_complete = none := by
    simp [thinkNode, ha, hsame]
  refine ⟨hpend, hawait, fun h1 h2 h3 => ?_⟩
  by_cases hmax : s.max_iterations ≤ s.current_iteration + 1
  · right
    have hiter : (applyThink s (thinkNode s d)).current_iteration =
        s.current_iteration + 1 := by
      simp [applyThink, thinkNode, ha, hsame]
    unfold routeAfterThink
    rw [if_pos]
    rw [hiter]
    exact hmax
  · have hiter : (applyThink s (thinkNode s d)).current_iteration =
        s.current_iteration + 1 := by
      simp [applyThink, thinkNode, ha, hsame]
    have hM : (applyThink s (thinkNode s d)).max_iterations =
        s.max_iterations := rfl
    have hT : (applyThink s (thinkNode s d)).task_complete = false := by
      simp [applyThink, htc, h1]
    have hA : (applyThink s (thinkNode s d)).awaiting_user_approval
        = false := by
      simp [applyThink, hawait, h2]
    have hP : (applyThink s (thinkNode s d)).phase_transition_pending
        = none := by
      simp [applyThink, hpend, h3]
    have hD : (applyThink s (thinkNode s d))._decision =
        some (suppressedDecision d s.current_phase s.original_objective) :=
      by simp [applyThink, hdec]
    unfold routeAfterThink
    rw [hiter, hM, hT, hA, hP, hD]
    by_cases hphase : s.current_phase = "exploitation" <;>
      by_cases htool : truthyOptStr d.tool_name = true
    · left
      simp [suppressedDecision, hphase, htool, hmax]
    · have hbool : truthyOptStr d.tool_name = false := by simpa using htool
      have hmc : truthyOptStr (some "metasploit_console") = true := rfl
      left
      simp [suppressedDecision, hphase, hbool, hmc, hmax]
    · left
      simp [suppressedDecision, hphase, htool, hmax]
    · have hbool : truthyOptStr d.tool_name = false := by simpa using htool
      right
      simp [suppressedDecision, hphase, hbool, hmax, ha]

/-- A session in the informational phase whose decision requests a
transition to the phase it is already in, with no tool chosen. -/
def samePhaseState : AgentState := { }

/-- The no-op same-phase transition decision. -/
def samePhaseDecision : LLMDecision :=
  { thought := "lets transition"
    reasoning := "keep gathering info"
    action := "transition_phase"
    phase_transition := some
      { to_phase := "informational", reason := "already here" } }

/-- C3 counterexample: on a concrete same-phase transition request with
no tool, the cycle routes to `generate_response` — not to a tool
execution and not back to `think` — refuting the claimed
tool-execution-or-think-loop disjunction (while still storing no
pending approval request). -/
theorem think_same_phase_counterexample :
    routeAfterThink
        (applyThink samePhaseState
          (thinkNode samePhaseState samePhaseDecision)) =
      "generate_response" ∧
    ("generate_response" : String) ≠ "execute_tool" ∧
    ("generate_response" : String) ≠ "think" ∧
    (thinkNode samePhaseState samePhaseDecision).phase_transition_pending
      = none ∧
    (thinkNode samePhaseState samePhaseDecision).awaiting_user_approval
      = none := by
  refine ⟨rfl, by decide, by decide, rfl, rfl⟩

/-- C3 witness: the amended property evaluated on the concrete same-phase
request. -/
theorem think_same_phase_no_approval_witness :
    (thinkNode samePhaseState samePhaseDecision).phase_transition_pending
      = none ∧
    (thinkNode samePhaseState samePhaseDecision).awaiting_user_approval
      = none ∧
    (routeAfterThink
        (applyThink samePhaseState
          (thinkNode samePhaseState samePhaseDecision)) =
      "execute_tool" ∨
     routeAfterThink
        (applyThink samePhaseState
          (thinkNode samePhaseState samePhaseDecision)) =
      "generate_response") := by
  have h := think_same_phase_no_approval samePhaseState samePhaseDecision
    rfl rfl
  exact ⟨h.1, h.2.1, h.2.2 rfl rfl rfl⟩

/-- C5 (amended): whenever no valid Decision JSON can be extracted and
validated from the raw LLM text, the parser returns the fallback
decision — `action = "complete"`, thought set to the raw text,
reasoning fixed to the constant string "Failed to parse structured
response", and a completion reason describing the parsing failure
(containing "parsing error") — and with that decision the traversal
routes from think to `generate_response` for every state, without
raising. -/
theorem parse_failure_falls_back (validate : String → Option LLMDecision)
    (raw : String)
    (h : ∀ js, extractJson raw = some js → validate js = none) :
    parseLLMDecision validate raw = fallbackDecision raw ∧
    (parseLLMDecision validate raw).action = "complete" ∧
    (parseLLMDecision validate raw).thought = raw ∧
    (parseLLMDecision validate raw).reasoning =
      "Failed to parse structured response" ∧
    (parseLLMDecision validate raw).completion_reason =
      some "Unable to continue due to response parsing error" ∧
    StrInfixOf "parsing error"
      "Unable to continue due to response parsing error" ∧
    (∀ s : AgentState,
      routeAfterThink
        (applyThink s (thinkNode s (parseLLMDecision validate raw))) =
      "generate_response") := by
  have hfb : parseLLMDecision validate raw = fallbackDecision raw := by
    unfold parseLLMDecision
    cases hE : extractJson raw with
    | none => rfl
    | some js =>
      show (match validate js with
        | some d => d
        | none => fallbackDecision raw) = fallbackDecision raw
      rw [h js hE]
  refine ⟨hfb, by rw [hfb]; rfl, by rw [hfb]; rfl, by rw [hfb]; rfl,
    by rw [hfb]; rfl, by decide, ?_⟩
  intro s
  rw [hfb]
  have htc2 : (applyThink s (thinkNode s (fallbackDecision raw))).task_complete
      = true := by
    simp [applyThink, thinkNode, fallbackDecision]
  unfold routeAfterThink
  by_cases hmax : (applyThink s (thinkNode s
      (fallbackDecision raw))).max_iterations ≤
      (applyThink s (thinkNode s (fallbackDecision raw))).current_iteration
  · rw [if_pos hmax]
  · rw [if_neg hmax, if_pos htc2]

/-- C5 counterexample: on a concrete unparsable response the fallback's
`reasoning` is the constant "Failed to parse structured response", not
the literal "parsing error" stated by the claim. -/
theorem parse_failure_reasoning_counterexample :
    extractJson "The model answered in plain prose." = none ∧
    (parseLLMDecision (fun _ => none)
        "The model answered in plain prose.").reasoning =
      "Failed to parse structured response" ∧
    (parseLLMDecision (fun _ => none)
        "The model answered in plain prose.").reasoning ≠
      "parsing error" := by
  refine ⟨rfl, rfl, by decide⟩

/-- C5 witness: the fallback and its routing evaluated at a concrete
raw text (no JSON object) and validator. -/
theorem parse_failure_falls_back_witness :
    parseLLMDecision (fun _ => none) "garbled output" =
      fallbackDecision "garbled output" ∧
    (parseLLMDecision (fun _ => none) "garbled output").action =
      "complete" ∧
    routeAfterThink
        (applyThink { }
          (thinkNode { }
            (parseLLMDecision (fun _ => none) "garbled output"))) =
      "generate_response" := by
  have h := parse_failure_falls_back (fun _ => none) "garbled output"
    (fun _ _ => rfl)
  exact ⟨h.1, h.2.1, h.2.2.2.2.2.2 { }⟩

/-- C8: the approval message rendered by `await_approval` from a pending
Transition Request contains every planned action and every risk
verbatim as a substring (no truncation), contains the placeholder lines
exactly when the respective list is empty, and the node appends that
message to the conversation. -/
theorem approval_message_verbatim (p : PendingTransition) :
    (∀ a ∈ pendingGetList (some p) PendingTransition.planned_actions,
      StrInfixOf a (phaseTransitionMessage (some p))) ∧
    (∀ r ∈ pendingGetList (some p) PendingTransition.risks,
      StrInfixOf r (phaseTransitionMessage (some p))) ∧
    (pendingGetList (some p) PendingTransition.planned_actions = [] →
      StrInfixOf "- No specific actions planned"
        (phaseTransitionMessage (some p))) ∧
    (pendingGetList (some p) PendingTransition.risks = [] →
      StrInfixOf "- Standard penetration testing risks apply"
        (phaseTransitionMessage (some p))) ∧
    (∀ s : AgentState, s.phase_transition_pending = some p →
      (awaitApprovalNode s).messages =
        s.messages ++ [Msg.ai (phaseTransitionMessage (some p))]) := by
  refine ⟨?_, ?_, ?_, ?_, ?_⟩
  · intro a ha
    have hne : pendingGetList (some p) PendingTransition.planned_actions
        ≠ [] := by
      intro hE
      rw [hE] at ha
      cases ha
    have hinfix := strInfixOf_joinLines_dash ha
    simp only [phaseTransitionMessage]
    apply strInfixOf_append_left
    apply strInfixOf_append_left
    apply strInfixOf_append_left
    apply strInfixOf_append_left
    apply strInfixOf_append_left
    apply strInfixOf_append_left
    apply strInfixOf_append_left
    apply strInfixOf_append_right
    rw [if_neg (joinLines_dash_ne_empty hne)]
    exact hinfix
  · intro r hr
    have hne : pendingGetList (some p) PendingTransition.risks ≠ [] := by
      intro hE
      rw [hE] at hr
      cases hr
    have hinfix := strInfixOf_joinLines_dash hr
    simp only [phaseTransitionMessage]
    apply strInfixOf_append_left
    apply strInfixOf_append_left
    apply strInfixOf_append_left
    apply strInfixOf_append_left
    apply strInfixOf_append_left
    apply strInfixOf_append_left
    apply strInfixOf_append_left
    apply strInfixOf_append_left
    apply strInfixOf_append_left
    apply strInfixOf_append_right
    rw [if_neg (joinLines_dash_ne_empty hne)]
    exact hinfix
  · intro hE
    simp only [phaseTransitionMessage, hE]
    apply strInfixOf_append_left
    apply strInfixOf_append_left
    apply strInfixOf_append_left
    apply strInfixOf_append_left
    apply strInfixOf_append_left
    apply strInfixOf_append_left
    apply strInfixOf_append_left
    apply strInfixOf_append_right
    rw [if_pos]
    · exact strInfixOf_refl _
    · rfl
  · intro hE
    simp only [phaseTransitionMessage, hE]
    apply strInfixOf_append_left
    apply strInfixOf_append_left
    apply strInfixOf_append_left
    apply strInfixOf_append_left
    apply strInfixOf_append_left
    apply strInfixOf_append_left
    apply strInfixOf_append_left
    apply strInfixOf_append_left
    apply strInfixOf_append_left
    apply strInfixOf_append_right
    rw [if_pos]
    · exact strInfixOf_refl _
    · rfl
  · intro s hs
    unfold awaitApprovalNode
    rw [hs]

/-- A concrete pending request with one planned action and no risks. -/
def smbPending : PendingTransition :=
  { from_phase := some "informational"
    to_phase := some "exploitation"
    reason := some "found exploitable service"
    planned_actions := some ["enumerate SMB shares"]
    risks := some [] }

/-- C8 witness: verbatim containment and the risks placeholder evaluated
on a concrete request. -/
theorem approval_message_verbatim_witness :
    StrInfixOf "enumerate SMB shares"
      (phaseTransitionMessage (some smbPending)) ∧
    StrInfixOf "- Standard penetration testing risks apply"
      (phaseTransitionMessage (some smbPending)) := by
  have h := approval_message_verbatim smbPending
  exact ⟨h.1 "enumerate SMB shares" (by simp [pendingGetList, smbPending]),
    h.2.2.2.1 rfl⟩

end RedAmon
